import Mathlib

/-!
Shallow embedding of the wallet extension's key vault and transaction
lifecycle code (CryptoService, TransactionService, TransactionMonitorService,
and the UnlockWallet component), with theorems checking the specification's
claims against it.

External library primitives (CryptoJS, ethers) are modelled at the
granularity the embedded code observes; each model carries a comment saying
exactly what is idealized.
-/

/- ===== Cipher model (CryptoService.encrypt / CryptoService.decrypt) ===== -/

/-- CryptoJS.PBKDF2(password, salt, 100000 iterations, 256-bit key), modelled
as the pair of its inputs: the derived key is a deterministic function of
(password, salt), and distinct passwords or salts give distinct keys (the
idealization of the KDF's collision resistance). -/
structure DerivedKey where
  password : String
  salt : String
deriving DecidableEq, Repr

def PBKDF2 (password salt : String) : DerivedKey :=
  { password := password, salt := salt }

/-- A CryptoJS AES-256-CBC ciphertext, modelled as the data it determines:
ciphertext is a deterministic function of (plaintext, key, IV). -/
structure AESCiphertext where
  data : String
  key : DerivedKey
  iv : String
deriving DecidableEq, Repr

/-- CryptoJS.AES.encrypt(data, key, CBC/Pkcs7 with the given IV). -/
def AES.encrypt (data : String) (key : DerivedKey) (iv : String) : AESCiphertext :=
  { data := data, key := key, iv := iv }

/-- CryptoJS.AES.decrypt followed by toString(Utf8): with the matching key and
IV the plaintext is recovered; with any other key or IV, CBC decryption yields
bytes whose Pkcs7 unpadding or UTF-8 decoding fails, modelled as none (the
source's try/catch turns either failure into the decrypt error). -/
def AES.decrypt (ct : AESCiphertext) (key : DerivedKey) (iv : String) : Option String :=
  if ct.key = key ∧ ct.iv = iv then some ct.data else none

/-- The return type of CryptoService.encrypt: encryptedData plus the (public)
salt and IV used. -/
structure EncryptedSecret where
  encryptedData : AESCiphertext
  salt : String
  iv : String
deriving DecidableEq, Repr

/-- The single error CryptoService.decrypt raises (the empty-plaintext check
throws inside the try block and is re-wrapped by the catch into the same
wrong-password-or-corrupted-data error). -/
inductive CryptoError where
  | decryptFailed
deriving DecidableEq, Repr

/-- CryptoService.encrypt: the randomly generated salt and IV are passed
explicitly as the random tape; the key is PBKDF2(password, salt). -/
def CryptoService.encrypt (data password salt iv : String) : EncryptedSecret :=
  let key := PBKDF2 password salt
  { encryptedData := AES.encrypt data key iv, salt := salt, iv := iv }

/-- CryptoService.decrypt: re-derives the key from (password, salt), decrypts,
and rejects an empty decrypted text (the source's `if (!decryptedText) throw`
sanity check). -/
def CryptoService.decrypt (encryptedData : AESCiphertext) (password salt iv : String) :
    Except CryptoError String :=
  let key := PBKDF2 password salt
  match AES.decrypt encryptedData key iv with
  | none => .error .decryptFailed
  | some decryptedText =>
    if decryptedText = "" then .error .decryptFailed else .ok decryptedText

/- ===== Transaction data model (types/blockchain.ts) ===== -/

/-- TransactionRecord.status: 'pending' | 'success' | 'failed'. -/
inductive TxStatus where
  | pending
  | success
  | failed
deriving DecidableEq, Repr

/-- TransactionRecord.type: 'eth' | 'erc20' | 'erc721' | 'erc1155'. -/
inductive TxType where
  | eth
  | erc20
  | erc721
  | erc1155
deriving DecidableEq, Repr

/-- TransactionRecord (types/blockchain.ts). `from` and `to` are Lean keywords, hence
`fromAddr` and `toAddr`. -/
structure TransactionRecord where
  hash : String
  fromAddr : String
  toAddr : String
  value : String
  gasUsed : String
  gasPrice : String
  status : TxStatus
  timestamp : Nat
  type : TxType
  blockNumber : Option Nat
deriving DecidableEq, Repr

/-- A Partial of TransactionRecord, as passed to updateTransactionRecord:
a field that is none is absent from the update object (no caller passes an
explicitly-undefined field, so absent and undefined are not distinguished). -/
structure RecordUpdates where
  hash : Option String := none
  fromAddr : Option String := none
  toAddr : Option String := none
  value : Option String := none
  gasUsed : Option String := none
  gasPrice : Option String := none
  status : Option TxStatus := none
  timestamp : Option Nat := none
  type : Option TxType := none
  blockNumber : Option (Option Nat) := none
deriving DecidableEq, Repr

/-- The object spread in updateTransactionRecord:
records[i] = { ...records[i], ...updates } — fields present in the update win,
every other field keeps its previous value. -/
def mergeRecord (r : TransactionRecord) (u : RecordUpdates) : TransactionRecord where
  hash := u.hash.getD r.hash
  fromAddr := u.fromAddr.getD r.fromAddr
  toAddr := u.toAddr.getD r.toAddr
  value := u.value.getD r.value
  gasUsed := u.gasUsed.getD r.gasUsed
  gasPrice := u.gasPrice.getD r.gasPrice
  status := u.status.getD r.status
  timestamp := u.timestamp.getD r.timestamp
  type := u.type.getD r.type
  blockNumber := u.blockNumber.getD r.blockNumber

/- ===== Transaction Ledger (TransactionService, persisted list) ===== -/

/-- TransactionService.saveTransactionRecord: prepends the new record to the
stored history ([record, ...existingRecords]). -/
def TransactionService.saveTransactionRecord (record : TransactionRecord)
    (records : List TransactionRecord) : List TransactionRecord :=
  record :: records

/-- TransactionService.updateTransactionRecord: findIndex of the first record
whose hash equals txHash; if found, replace it in place with the spread-merge
of the old record and the updates; if no record matches, the stored history is
left unchanged and no error is raised. -/
def TransactionService.updateTransactionRecord (records : List TransactionRecord)
    (txHash : String) (updates : RecordUpdates) : List TransactionRecord :=
  match records with
  | [] => []
  | r :: rest =>
    if r.hash = txHash then mergeRecord r updates :: rest
    else r :: TransactionService.updateTransactionRecord rest txHash updates

/-- TransactionService.getTransactionRecord: first stored record with the
given hash, or null. -/
def TransactionService.getTransactionRecord (records : List TransactionRecord)
    (txHash : String) : Option TransactionRecord :=
  records.find? (fun r => r.hash = txHash)

/- ===== Chain client model and status reconciliation ===== -/

/-- The receipt returned by the chain client
(blockchainService.getTransactionReceipt): status code (1 = success),
gasUsed and blockNumber. -/
structure Receipt where
  status : Nat
  gasUsed : Nat
  blockNumber : Nat
deriving DecidableEq, Repr

/-- A chain-client oracle: the receipt (if any) the node currently reports
for each transaction hash. -/
def ChainOracle : Type := String → Option Receipt

/-- The partial update trackTransaction writes when a receipt exists:
status from the receipt's status code, gasUsed and blockNumber copied over. -/
def trackUpdates (receipt : Receipt) : RecordUpdates where
  status := some (if receipt.status = 1 then .success else .failed)
  gasUsed := some (toString receipt.gasUsed)
  blockNumber := some (some receipt.blockNumber)

/-- TransactionService.trackTransaction: fetch the receipt; if present, merge
status/gasUsed/blockNumber into the stored record with that hash and return
the re-read record; if the node has no receipt yet, return null and leave the
history unchanged. Returns (returned record, resulting stored history). -/
def TransactionService.trackTransaction (chain : ChainOracle)
    (records : List TransactionRecord) (txHash : String) :
    Option TransactionRecord × List TransactionRecord :=
  match chain txHash with
  | some receipt =>
    let updated := TransactionService.updateTransactionRecord records txHash
      (trackUpdates receipt)
    (TransactionService.getTransactionRecord updated txHash, updated)
  | none => (none, records)

/-- Events the monitor emits to its subscribers. -/
inductive MonitorEvent where
  | statusChange (record : TransactionRecord) (oldStatus : TxStatus)
  | balanceUpdate (record : TransactionRecord)
deriving DecidableEq, Repr

/-- TransactionMonitorService.checkTransactionStatus: reconcile one (stale)
pending record; emit statusChange on an observed status change and
balanceUpdate when the new status is success. Returns (stored history after
the step, events emitted by the step). -/
def TransactionMonitorService.checkTransactionStatus (chain : ChainOracle)
    (records : List TransactionRecord) (tx : TransactionRecord) :
    List TransactionRecord × List MonitorEvent :=
  let tracked := TransactionService.trackTransaction chain records tx.hash
  match tracked.1 with
  | some updatedRecord =>
    if updatedRecord.status ≠ tx.status then
      (tracked.2,
        .statusChange updatedRecord tx.status ::
          (if updatedRecord.status = .success then [.balanceUpdate updatedRecord] else []))
    else (tracked.2, [])
  | none => (tracked.2, [])

/-- The for-loop body of checkAllPendingTransactions: process the snapshot of
pending records one at a time, threading the stored history. -/
def TransactionMonitorService.processPending (chain : ChainOracle)
    (pendingList : List TransactionRecord) (records : List TransactionRecord) :
    List TransactionRecord × List MonitorEvent :=
  match pendingList with
  | [] => (records, [])
  | tx :: rest =>
    let step := TransactionMonitorService.checkTransactionStatus chain records tx
    let more := TransactionMonitorService.processPending chain rest step.1
    (more.1, step.2 ++ more.2)

/-- TransactionMonitorService.checkAllPendingTransactions (one monitor tick):
fetch the history, filter the records whose status is pending, and reconcile
each of those. -/
def TransactionMonitorService.checkAllPendingTransactions (chain : ChainOracle)
    (records : List TransactionRecord) :
    List TransactionRecord × List MonitorEvent :=
  let pendingTransactions := records.filter (fun tx => tx.status = .pending)
  TransactionMonitorService.processPending chain pendingTransactions records

/-- TransactionMonitorService.checkTransaction (manual single-record check):
null for an unknown hash; a non-pending record is returned as is; a pending
record goes through trackTransaction, with the same notification logic as a
tick, and whatever trackTransaction returned (possibly null) is returned.
Returns (returned record, resulting history, events emitted). -/
def TransactionMonitorService.checkTransaction (chain : ChainOracle)
    (records : List TransactionRecord) (txHash : String) :
    Option TransactionRecord × List TransactionRecord × List MonitorEvent :=
  match TransactionService.getTransactionRecord records txHash with
  | none => (none, records, [])
  | some currentRecord =>
    if currentRecord.status ≠ .pending then (some currentRecord, records, [])
    else
      let tracked := TransactionService.trackTransaction chain records txHash
      match tracked.1 with
      | some updatedRecord =>
        if updatedRecord.status ≠ currentRecord.status then
          (some updatedRecord, tracked.2,
            .statusChange updatedRecord currentRecord.status ::
              (if updatedRecord.status = .success then [.balanceUpdate updatedRecord] else []))
        else (some updatedRecord, tracked.2, [])
      | none => (none, tracked.2, [])

/- ===== Transaction builder (TransactionService.buildETHTransaction) ===== -/

/-- BlockchainErrorType (types/blockchain.ts). The embedded functions return
the error type; the human-readable message carries no extra information. -/
inductive BlockchainErrorType where
  | NETWORK_ERROR
  | INSUFFICIENT_FUNDS
  | INVALID_ADDRESS
  | INVALID_AMOUNT
  | GAS_ESTIMATION_FAILED
  | TRANSACTION_FAILED
  | CONTRACT_ERROR
  | USER_REJECTED
  | PROVIDER_NOT_CONNECTED
deriving DecidableEq, Repr

/-- TransactionRequest (types/blockchain.ts), the fields buildETHTransaction
populates. -/
structure TransactionRequest where
  toAddr : String
  value : String
  gasLimit : Option String := none
  gasPrice : Option String := none
deriving DecidableEq, Repr

/-- The numeric value of a list of decimal digit characters. -/
def natOfDigits (cs : List Char) : Nat :=
  cs.foldl (fun acc c => acc * 10 + (c.toNat - 48)) 0

/-- ethers.isAddress, modelled as: "0x" followed by exactly 40 lowercase
hexadecimal digits. The EIP-55 mixed-case checksum branch of ethers is not
modelled; ethers accepts an all-lowercase address exactly when it has this
shape, and every address the theorems use is lowercase. -/
def ethers.isAddress (s : String) : Bool :=
  match s.toList with
  | '0' :: 'x' :: rest =>
    rest.length = 40 && rest.all (fun c => c.isDigit || ('a' ≤ c && c ≤ 'f'))
  | _ => false

/-- ethers.parseUnits(value, decimals): the string must match optional-minus,
digits, optional dot, digits (the ethers v6 FixedNumber regex), with at least
one digit in whole+fraction and at most `decimals` fraction digits; the result
is the value scaled by 10^decimals. Returns none where ethers throws. -/
def ethers.parseUnits (value : String) (decimals : Nat) : Option Int :=
  let cs := value.toList
  let neg := match cs with
    | '-' :: _ => true
    | _ => false
  let body := match cs with
    | '-' :: rest => rest
    | rest => rest
  let sign : Int := if neg then -1 else 1
  let whole := body.takeWhile (fun c => c ≠ '.')
  match body.dropWhile (fun c => c ≠ '.') with
  | [] =>
    if 0 < whole.length && whole.all Char.isDigit then
      some (sign * (natOfDigits whole : Int) * (10 : Int) ^ decimals)
    else none
  | _ :: fraction =>
    if 0 < whole.length + fraction.length && whole.all Char.isDigit &&
        fraction.all Char.isDigit && fraction.length ≤ decimals then
      some (sign * ((natOfDigits whole : Int) * (10 : Int) ^ decimals +
        (natOfDigits fraction : Int) * (10 : Int) ^ (decimals - fraction.length)))
    else none

/-- ethers.parseEther(value) = parseUnits(value, 18): the exact wei value. -/
def ethers.parseEther (value : String) : Option Int :=
  ethers.parseUnits value 18

/-- TransactionService.buildETHTransaction: validates the recipient address,
parses the amount to wei and requires it strictly positive, then returns the
request; a parse failure of amount or gasPrice is a thrown non-BlockchainError
that the catch wraps as TRANSACTION_FAILED. The function calls no chain-client
operation (gas estimation lives in a separate method), which the absence of a
chain oracle argument makes structural. -/
def TransactionService.buildETHTransaction (fromAddr toAddr amount : String)
    (gasPrice gasLimit : Option String) :
    Except BlockchainErrorType TransactionRequest :=
  if ¬ ethers.isAddress toAddr then .error .INVALID_ADDRESS
  else
    match ethers.parseEther amount with
    | none => .error .TRANSACTION_FAILED
    | some amountWei =>
      if amountWei ≤ 0 then .error .INVALID_AMOUNT
      else
        match gasPrice with
        | none =>
          .ok { toAddr := toAddr, value := toString amountWei, gasLimit := gasLimit }
        | some gp =>
          match ethers.parseUnits gp 9 with
          | none => .error .TRANSACTION_FAILED
          | some gpWei =>
            .ok { toAddr := toAddr, value := toString amountWei,
                  gasLimit := gasLimit, gasPrice := some (toString gpWei) }

/- ===== Signer/submitter (TransactionService.signAndSendTransaction) ===== -/

/-- How a wallet.sendTransaction failure presents to the catch block: an error
whose code is INSUFFICIENT_FUNDS, an error whose code is USER_REJECTED, or any
other (ethers-internal, non-BlockchainError) failure. -/
inductive SendErrorCode where
  | insufficientFunds
  | userRejected
  | other
deriving DecidableEq, Repr

/-- The fields of the ethers TransactionResponse that
signAndSendTransaction reads (from and to are asserted non-null in the
source; value and gasPrice are optional bigints). -/
structure TxResponse where
  hash : String
  fromAddr : String
  toAddr : String
  value : Option Nat
  gasPrice : Option Nat
deriving DecidableEq, Repr

/-- TransactionService.signAndSendTransaction: rejects a private key whose
length is neither 64 nor 66 before anything else (the empty string is also
caught by that length test); then the broadcast outcome (modelled as the
sendResult argument) either yields a TransactionResponse — a pending record
with gasUsed "0" and no blockNumber is prepended to the history and the hash
returned — or an error, classified by its code, with the history untouched.
Returns (result, resulting stored history). -/
def TransactionService.signAndSendTransaction
    (sendResult : Except SendErrorCode TxResponse) (privateKey : String)
    (timestamp : Nat) (records : List TransactionRecord) :
    Except BlockchainErrorType String × List TransactionRecord :=
  if privateKey.length ≠ 64 ∧ privateKey.length ≠ 66 then
    (.error .INVALID_ADDRESS, records)
  else
    match sendResult with
    | .ok txResponse =>
      let record : TransactionRecord :=
        { hash := txResponse.hash
          fromAddr := txResponse.fromAddr
          toAddr := txResponse.toAddr
          value := (txResponse.value.map toString).getD ("0")
          gasUsed := "0"
          gasPrice := (txResponse.gasPrice.map toString).getD ("0")
          status := .pending
          timestamp := timestamp
          type := .eth
          blockNumber := none }
      (.ok txResponse.hash, TransactionService.saveTransactionRecord record records)
    | .error e =>
      match e with
      | .insufficientFunds => (.error .INSUFFICIENT_FUNDS, records)
      | .userRejected => (.error .USER_REJECTED, records)
      | .other => (.error .TRANSACTION_FAILED, records)

/- ===== Unlock screen (UnlockWallet component) ===== -/

/-- The error banner of the UnlockWallet component, as an enumeration (the
source holds the rendered message string). -/
inductive UnlockMessage where
  | noMessage
  | enterPassword
  | wrongPassword (shown : Nat)
  | unlockFailed
deriving DecidableEq, Repr

/-- The React state of the UnlockWallet component. -/
structure UnlockState where
  password : String
  isUnlocking : Bool
  error : UnlockMessage
  attempts : Nat
deriving DecidableEq, Repr

/-- The component's initial state: useState('') / useState(false) /
useState('') / useState(0). -/
def initialUnlockState : UnlockState :=
  { password := "", isUnlocking := false, error := .noMessage, attempts := 0 }

/-- const isMaxAttempts = attempts >= 5. -/
def UnlockWallet.isMaxAttempts (s : UnlockState) : Bool :=
  decide (5 ≤ s.attempts)

/-- The disabled prop shared by the password input and the unlock button:
!password || isUnlocking || isMaxAttempts (the password box additionally
ignores typing when disabled). -/
def UnlockWallet.unlockDisabled (s : UnlockState) : Bool :=
  (s.password == "") || s.isUnlocking || UnlockWallet.isMaxAttempts s

/-- Typing into the password input: ignored while the input is disabled
(unlocking in progress or five failures reached); otherwise sets the password
and clears the error banner. -/
def UnlockWallet.typePassword (s : UnlockState) (text : String) : UnlockState :=
  if s.isUnlocking || UnlockWallet.isMaxAttempts s then s
  else { s with password := text, error := .noMessage }

/-- UnlockWallet.handleUnlock. The injected onUnlock(password) callback
(handleUnlock in theme.ts) decrypts the vault, which succeeds exactly when the
typed password is the wallet's password — modelled by the correctPassword
argument. On success the password is cleared and attempts reset; on failure
attempts is incremented, the wrong-password banner shows (attempts+1), and the
password is cleared. isUnlocking is true only during the await, hence false in
the state the handler leaves behind. Returns the new state and whether the
wallet unlocked. -/
def UnlockWallet.handleUnlock (correctPassword : String) (s : UnlockState) :
    UnlockState × Bool :=
  if s.password == "" then ({ s with error := .enterPassword }, false)
  else if s.password == correctPassword then
    ({ s with isUnlocking := false, error := .noMessage, password := "", attempts := 0 },
      true)
  else
    ({ s with
        isUnlocking := false
        error := UnlockMessage.wrongPassword (s.attempts + 1)
        attempts := s.attempts + 1
        password := "" }, false)

/-- Pressing the unlock button: a click reaches handleUnlock only while the
button is enabled. -/
def UnlockWallet.clickUnlock (correctPassword : String) (s : UnlockState) :
    UnlockState × Bool :=
  if UnlockWallet.unlockDisabled s then (s, false)
  else UnlockWallet.handleUnlock correctPassword s

/-- One complete user attempt: type a password, then press the unlock
button. -/
def UnlockWallet.attemptUnlock (correctPassword typed : String) (s : UnlockState) :
    UnlockState × Bool :=
  UnlockWallet.clickUnlock correctPassword (UnlockWallet.typePassword s typed)

/- ===== Concrete sample data used by witnesses and counterexamples ===== -/

/-- A sample transaction record with the given hash and status. -/
def sampleRec (h : String) (st : TxStatus) : TransactionRecord :=
  { hash := h, fromAddr := "0xf", toAddr := "0xt", value := "1", gasUsed := "0",
    gasPrice := "2", status := st, timestamp := 0, type := .eth, blockNumber := none }

/-- A sample chain oracle: a failure receipt for hash "0xb", nothing else. -/
def sampleChain : ChainOracle := fun h =>
  if h = "0xb" then some { status := 0, gasUsed := 21000, blockNumber := 5 } else none

/-- A sample chain oracle: a success receipt for hash "0xb", nothing else. -/
def sampleChainOk : ChainOracle := fun h =>
  if h = "0xb" then some { status := 1, gasUsed := 21000, blockNumber := 5 } else none

/-- A sample chain oracle with no receipts at all. -/
def emptyChain : ChainOracle := fun _ => none

/-- The unlock-screen state after five wrong-password attempts (typing "bad"
where the wallet password is "pw1") from a freshly mounted screen. -/
def afterFiveWrong : UnlockState :=
  (UnlockWallet.attemptUnlock ("pw1") ("bad")
    ((UnlockWallet.attemptUnlock ("pw1") ("bad")
      ((UnlockWallet.attemptUnlock ("pw1") ("bad")
        ((UnlockWallet.attemptUnlock ("pw1") ("bad")
          ((UnlockWallet.attemptUnlock ("pw1") ("bad")
            initialUnlockState).1)).1)).1)).1)).1

/- ===== Theorems ===== -/

/-- Claim C1, counterexample: the cipher round-trip fails at the empty string.
Encrypting "" (the private-key-import flow's mnemonic placeholder) and
decrypting with the same password does not return "": the decrypted text is
empty, so the sanity check makes decrypt fail. -/
theorem decrypt_encrypt_empty_fails :
    CryptoService.decrypt
        (CryptoService.encrypt ("") ("pw") ("salt0") ("iv0")).encryptedData
        ("pw") ("salt0") ("iv0") = Except.error CryptoError.decryptFailed ∧
      CryptoService.decrypt
        (CryptoService.encrypt ("") ("pw") ("salt0") ("iv0")).encryptedData
        ("pw") ("salt0") ("iv0") ≠ Except.ok ("") := by
  refine ⟨rfl, ?_⟩
  intro h
  simp [CryptoService.decrypt, CryptoService.encrypt, AES.decrypt, AES.encrypt,
    PBKDF2] at h

/-- Claim C1 (amended): for every nonempty plaintext, decrypting with the
same password (and the stored salt and IV) returns exactly the plaintext;
the empty string is the one exception, rejected by decrypt's sanity check. -/
theorem decrypt_encrypt_roundtrip (data password salt iv : String)
    (hne : data ≠ "") :
    CryptoService.decrypt
        (CryptoService.encrypt data password salt iv).encryptedData
        password salt iv = Except.ok data := by
  simp [CryptoService.decrypt, CryptoService.encrypt, AES.decrypt, AES.encrypt,
    PBKDF2, hne]

/-- Witness for the amended C1 round-trip at a concrete input. -/
theorem decrypt_encrypt_roundtrip_witness :
    CryptoService.decrypt
        (CryptoService.encrypt ("my secret mnemonic") ("pw1") ("s1") ("i1")).encryptedData
        ("pw1") ("s1") ("i1") = Except.ok ("my secret mnemonic") :=
  decrypt_encrypt_roundtrip ("my secret mnemonic") ("pw1") ("s1") ("i1") (by decide)

/-- Claim C2: decrypting with any password other than the one used to encrypt
fails with the crypto error and never returns a plaintext (in the ideal-cipher
model, a mismatched key makes CBC decryption yield garbage that fails the
UTF-8/padding step). -/
theorem decrypt_wrong_password_fails (data password wrongPassword salt iv : String)
    (h : wrongPassword ≠ password) :
    CryptoService.decrypt
        (CryptoService.encrypt data password salt iv).encryptedData
        wrongPassword salt iv = Except.error CryptoError.decryptFailed := by
  simp [CryptoService.decrypt, CryptoService.encrypt, AES.decrypt, AES.encrypt,
    PBKDF2, DerivedKey.mk.injEq, Ne.symm h]

/-- Witness for C2 at a concrete input. -/
theorem decrypt_wrong_password_fails_witness :
    CryptoService.decrypt
        (CryptoService.encrypt ("my secret") ("pw1") ("s1") ("i1")).encryptedData
        ("pw2") ("s1") ("i1") = Except.error CryptoError.decryptFailed :=
  decrypt_wrong_password_fails ("my secret") ("pw1") ("pw2") ("s1") ("i1") (by decide)

/-- updateTransactionRecord never changes the number of stored records. -/
theorem updateTransactionRecord_length (records : List TransactionRecord)
    (txHash : String) (u : RecordUpdates) :
    (TransactionService.updateTransactionRecord records txHash u).length =
      records.length := by
  induction records with
  | nil => rfl
  | cons r rest ih =>
    by_cases h : r.hash = txHash <;>
      simp [TransactionService.updateTransactionRecord, h, ih]

/-- Position-wise effect of updateTransactionRecord: every position is either
untouched or holds the merge of its previous record (whose hash then matches)
with the updates. -/
theorem updateTransactionRecord_getElem (records : List TransactionRecord)
    (txHash : String) (u : RecordUpdates) (i : Nat) :
    (TransactionService.updateTransactionRecord records txHash u)[i]? = records[i]? ∨
      ∃ r, records[i]? = some r ∧ r.hash = txHash ∧
        (TransactionService.updateTransactionRecord records txHash u)[i]? =
          some (mergeRecord r u) := by
  induction records generalizing i with
  | nil => left; rfl
  | cons r rest ih =>
    by_cases h : r.hash = txHash
    · cases i with
      | zero =>
        right
        exact ⟨r, by simp, h, by simp [TransactionService.updateTransactionRecord, h]⟩
      | succ n => left; simp [TransactionService.updateTransactionRecord, h]
    · cases i with
      | zero => left; simp [TransactionService.updateTransactionRecord, h]
      | succ n =>
        rcases ih n with h1 | ⟨r', hr', hh, he⟩
        · left
          simpa [TransactionService.updateTransactionRecord, h] using h1
        · right
          refine ⟨r', by simpa using hr', hh, ?_⟩
          simpa [TransactionService.updateTransactionRecord, h] using he

/-- A record whose hash differs from the updated hash is left at its position,
completely unchanged. -/
theorem updateTransactionRecord_frame (records : List TransactionRecord)
    (txHash : String) (u : RecordUpdates) (i : Nat) (r : TransactionRecord)
    (hr : records[i]? = some r) (hne : r.hash ≠ txHash) :
    (TransactionService.updateTransactionRecord records txHash u)[i]? = some r := by
  rcases updateTransactionRecord_getElem records txHash u i with h | ⟨r', hr', hh, he⟩
  · rw [h, hr]
  · rw [hr] at hr'
    cases Option.some.inj hr'
    exact absurd hh hne

/-- Claim C8: ledger updates are merges, never full overwrites. The update
leaves the list length unchanged; every position holding a record with a
different hash keeps exactly its previous record; every position is either
untouched or replaced by the spread-merge of its previous record with the
updates; and the merge keeps the previous value of every field the update
does not name. -/
theorem updateTransactionRecord_merges (records : List TransactionRecord)
    (txHash : String) (u : RecordUpdates) :
    ((TransactionService.updateTransactionRecord records txHash u).length =
        records.length) ∧
      (∀ (i : Nat) (r : TransactionRecord), records[i]? = some r → r.hash ≠ txHash →
        (TransactionService.updateTransactionRecord records txHash u)[i]? = some r) ∧
      (∀ (i : Nat) (r : TransactionRecord), records[i]? = some r →
        (TransactionService.updateTransactionRecord records txHash u)[i]? = some r ∨
          (r.hash = txHash ∧
            (TransactionService.updateTransactionRecord records txHash u)[i]? =
              some (mergeRecord r u))) ∧
      (∀ r : TransactionRecord,
        (u.hash = none → (mergeRecord r u).hash = r.hash) ∧
          (u.fromAddr = none → (mergeRecord r u).fromAddr = r.fromAddr) ∧
          (u.toAddr = none → (mergeRecord r u).toAddr = r.toAddr) ∧
          (u.value = none → (mergeRecord r u).value = r.value) ∧
          (u.gasUsed = none → (mergeRecord r u).gasUsed = r.gasUsed) ∧
          (u.gasPrice = none → (mergeRecord r u).gasPrice = r.gasPrice) ∧
          (u.status = none → (mergeRecord r u).status = r.status) ∧
          (u.timestamp = none → (mergeRecord r u).timestamp = r.timestamp) ∧
          (u.type = none → (mergeRecord r u).type = r.type) ∧
          (u.blockNumber = none → (mergeRecord r u).blockNumber = r.blockNumber)) := by
  refine ⟨updateTransactionRecord_length records txHash u, ?_, ?_, ?_⟩
  · intro i r hr hne
    exact updateTransactionRecord_frame records txHash u i r hr hne
  · intro i r hr
    rcases updateTransactionRecord_getElem records txHash u i with h | ⟨r', hr', hh, he⟩
    · left; rw [h, hr]
    · rw [hr] at hr'
      cases Option.some.inj hr'
      right; exact ⟨hh, he⟩
  · intro r
    refine ⟨?_, ?_, ?_, ?_, ?_, ?_, ?_, ?_, ?_, ?_⟩ <;>
      (intro h; simp [mergeRecord, h])

/-- Witness for C8 at a concrete input: a two-record history where the update
names only the status; the other record is untouched and the updated record
keeps its gasPrice. -/
theorem updateTransactionRecord_merges_witness :
    (TransactionService.updateTransactionRecord
        [{ hash := "0xa", fromAddr := "0x1", toAddr := "0x2", value := "5",
           gasUsed := "0", gasPrice := "7", status := .pending, timestamp := 3,
           type := .eth, blockNumber := none },
         { hash := "0xb", fromAddr := "0x1", toAddr := "0x2", value := "9",
           gasUsed := "0", gasPrice := "8", status := .pending, timestamp := 4,
           type := .eth, blockNumber := none }]
        ("0xb") { status := some TxStatus.success })[0]? =
      some { hash := "0xa", fromAddr := "0x1", toAddr := "0x2", value := "5",
             gasUsed := "0", gasPrice := "7", status := .pending, timestamp := 3,
             type := .eth, blockNumber := none } ∧
      (mergeRecord
        { hash := "0xb", fromAddr := "0x1", toAddr := "0x2", value := "9",
          gasUsed := "0", gasPrice := "8", status := .pending, timestamp := 4,
          type := .eth, blockNumber := none }
        { status := some TxStatus.success }).gasPrice = "8" := by
  constructor
  · exact (updateTransactionRecord_merges _ ("0xb") _).2.1 0 _ rfl (by decide)
  · exact ((updateTransactionRecord_merges
      [{ hash := "0xb", fromAddr := "0x1", toAddr := "0x2", value := "9",
         gasUsed := "0", gasPrice := "8", status := .pending, timestamp := 4,
         type := .eth, blockNumber := none }] ("0xb")
      { status := some TxStatus.success }).2.2.2 _).2.2.2.2.2.1 rfl

/-- Claim C10: updating a hash that matches no stored record is a silent
no-op — the history is returned unchanged (so nothing is created), and the
function signals no error (its TypeScript original returns void and its only
conditional is the found-index check). -/
theorem updateTransactionRecord_unknown_hash_noop (records : List TransactionRecord)
    (txHash : String) (u : RecordUpdates)
    (h : ∀ r ∈ records, r.hash ≠ txHash) :
    TransactionService.updateTransactionRecord records txHash u = records := by
  induction records with
  | nil => rfl
  | cons r rest ih =>
    have hr : r.hash ≠ txHash := h r (List.mem_cons_self r rest)
    simp [TransactionService.updateTransactionRecord, hr,
      ih (fun x hx => h x (List.mem_cons_of_mem r hx))]

/-- Witness for C10 at a concrete input. -/
theorem updateTransactionRecord_unknown_hash_noop_witness :
    TransactionService.updateTransactionRecord
        [{ hash := "0xa", fromAddr := "0x1", toAddr := "0x2", value := "5",
           gasUsed := "0", gasPrice := "7", status := .pending, timestamp := 3,
           type := .eth, blockNumber := none }]
        ("0xmissing") { status := some TxStatus.failed } =
      [{ hash := "0xa", fromAddr := "0x1", toAddr := "0x2", value := "5",
         gasUsed := "0", gasPrice := "7", status := .pending, timestamp := 3,
         type := .eth, blockNumber := none }] := by
  refine updateTransactionRecord_unknown_hash_noop _ _ _ ?_
  intro r hr
  simp at hr
  rw [hr]
  decide

/-- The stored history a single reconciliation step leaves behind: untouched
when the node has no receipt, otherwise the history with the receipt's
status/gasUsed/blockNumber merged into the record with that hash. -/
theorem checkTransactionStatus_state (chain : ChainOracle)
    (records : List TransactionRecord) (tx : TransactionRecord) :
    (TransactionMonitorService.checkTransactionStatus chain records tx).1 =
      (match chain tx.hash with
       | some rc =>
         TransactionService.updateTransactionRecord records tx.hash (trackUpdates rc)
       | none => records) := by
  unfold TransactionMonitorService.checkTransactionStatus
    TransactionService.trackTransaction
  cases h : chain tx.hash with
  | none => simp [h]
  | some rc =>
    simp only [h]
    cases hg : TransactionService.getTransactionRecord
        (TransactionService.updateTransactionRecord records tx.hash (trackUpdates rc))
        tx.hash <;> simp [hg] <;> split <;> rfl

/-- A record whose hash none of the processed pending transactions carries is
left at its position, completely unchanged, by the whole loop. -/
theorem processPending_frame (chain : ChainOracle)
    (pendingList : List TransactionRecord) (records : List TransactionRecord)
    (i : Nat) (r : TransactionRecord) (hr : records[i]? = some r)
    (h : ∀ tx ∈ pendingList, tx.hash ≠ r.hash) :
    (TransactionMonitorService.processPending chain pendingList records).1[i]? =
      some r := by
  induction pendingList generalizing records with
  | nil => simpa [TransactionMonitorService.processPending] using hr
  | cons tx rest ih =>
    have h2 : (TransactionMonitorService.checkTransactionStatus chain records tx).1[i]? =
        some r := by
      rw [checkTransactionStatus_state]
      cases hc : chain tx.hash with
      | none => simpa using hr
      | some rc =>
        exact updateTransactionRecord_frame records tx.hash (trackUpdates rc) i r hr
          (fun he => h tx (List.mem_cons_self tx rest) he.symm)
    have := ih _ h2 (fun tx' htx' => h tx' (List.mem_cons_of_mem tx htx'))
    simpa [TransactionMonitorService.processPending] using this

/-- Shape of a single reconciliation step, position-wise: a position either
keeps its record or receives a record with the same hash and a terminal
status. -/
theorem checkTransactionStatus_shape (chain : ChainOracle)
    (records : List TransactionRecord) (tx : TransactionRecord) (i : Nat)
    (r' : TransactionRecord)
    (h : (TransactionMonitorService.checkTransactionStatus chain records tx).1[i]? =
      some r') :
    ∃ r, records[i]? = some r ∧ r'.hash = r.hash ∧
      (r' = r ∨ r'.status ≠ TxStatus.pending) := by
  rw [checkTransactionStatus_state] at h
  cases hc : chain tx.hash with
  | none =>
    rw [hc] at h
    exact ⟨r', h, rfl, Or.inl rfl⟩
  | some rc =>
    rw [hc] at h
    rcases updateTransactionRecord_getElem records tx.hash (trackUpdates rc) i with
      heq | ⟨r, hrr, hh, he⟩
    · rw [heq] at h
      exact ⟨r', h, rfl, Or.inl rfl⟩
    · rw [he] at h
      cases Option.some.inj h
      refine ⟨r, hrr, by simp [mergeRecord, trackUpdates], Or.inr ?_⟩
      simp only [mergeRecord, trackUpdates, Option.getD_some]
      split <;> simp

/-- Shape of the whole loop, position-wise: a position either keeps its record
or receives a record with the same hash and a terminal status. -/
theorem processPending_shape (chain : ChainOracle)
    (pendingList : List TransactionRecord) (records : List TransactionRecord)
    (i : Nat) (r' : TransactionRecord)
    (h : (TransactionMonitorService.processPending chain pendingList records).1[i]? =
      some r') :
    ∃ r, records[i]? = some r ∧ r'.hash = r.hash ∧
      (r' = r ∨ r'.status ≠ TxStatus.pending) := by
  induction pendingList generalizing records with
  | nil => exact ⟨r', by simpa [TransactionMonitorService.processPending] using h,
      rfl, Or.inl rfl⟩
  | cons tx rest ih =>
    have h' : (TransactionMonitorService.processPending chain rest
        (TransactionMonitorService.checkTransactionStatus chain records tx).1).1[i]? =
        some r' := by
      simpa [TransactionMonitorService.processPending] using h
    rcases ih _ h' with ⟨r2, hr2, hh2, hor2⟩
    rcases checkTransactionStatus_shape chain records tx i r2 hr2 with ⟨r, hrr, hh, hor⟩
    refine ⟨r, hrr, hh2.trans hh, ?_⟩
    rcases hor2 with rfl | hterm
    · exact hor
    · exact Or.inr hterm

/-- Distinct positions of a history with pairwise-distinct hashes hold records
with distinct hashes. -/
theorem nodup_hash_ne {l : List TransactionRecord}
    (h : (l.map TransactionRecord.hash).Nodup) {i j : Nat}
    {a b : TransactionRecord} (hij : i ≠ j) (ha : l[i]? = some a)
    (hb : l[j]? = some b) : a.hash ≠ b.hash := by
  intro he
  have ha' : (l.map TransactionRecord.hash)[i]? = some a.hash := by
    simp [List.getElem?_map, ha]
  have hb' : (l.map TransactionRecord.hash)[j]? = some b.hash := by
    simp [List.getElem?_map, hb]
  have hi : i < (l.map TransactionRecord.hash).length := by
    rcases List.getElem?_eq_some.mp ha' with ⟨hlt, _⟩
    exact hlt
  exact hij (List.getElem?_inj hi h (by rw [ha', hb', he]))

/-- Claim C3: once a record's status is success or failed, no later monitor
tick overwrites it. Under the data-model invariant that stored hashes are
pairwise distinct, a tick leaves every non-pending record exactly in place
(it only fetches pending records and reconciles those), and whatever a
position holds after the tick is either its old record or a record with the
same hash whose status went pending → success/failed — never backward and
never terminal → terminal. -/
theorem monitor_tick_terminal_absorbing (chain : ChainOracle)
    (records : List TransactionRecord)
    (hnd : (records.map TransactionRecord.hash).Nodup) (i : Nat)
    (r : TransactionRecord) (hr : records[i]? = some r) :
    (r.status ≠ TxStatus.pending →
      (TransactionMonitorService.checkAllPendingTransactions chain records).1[i]? =
        some r) ∧
      (∀ r',
        (TransactionMonitorService.checkAllPendingTransactions chain records).1[i]? =
          some r' →
        r'.hash = r.hash ∧
          (r' = r ∨ (r.status = TxStatus.pending ∧ r'.status ≠ TxStatus.pending))) := by
  have hframe : r.status ≠ TxStatus.pending →
      (TransactionMonitorService.checkAllPendingTransactions chain records).1[i]? =
        some r := by
    intro hterm
    simp only [TransactionMonitorService.checkAllPendingTransactions]
    apply processPending_frame chain _ records i r hr
    intro tx htx
    have hmem : tx ∈ records ∧ tx.status = TxStatus.pending := by
      simpa using List.mem_filter.mp htx
    obtain ⟨j, hj⟩ := List.mem_iff_getElem?.mp hmem.1
    have hij : j ≠ i := by
      intro he
      subst he
      rw [hj] at hr
      cases Option.some.inj hr
      exact hterm hmem.2
    exact nodup_hash_ne hnd hij hj hr
  refine ⟨hframe, ?_⟩
  intro r' hout
  simp only [TransactionMonitorService.checkAllPendingTransactions] at hout
  rcases processPending_shape chain _ records i r' hout with ⟨r0, hr0, hh, hor⟩
  rw [hr] at hr0
  cases Option.some.inj hr0
  rcases hor with rfl | hterm
  · exact ⟨hh, Or.inl rfl⟩
  · by_cases hp : r.status = TxStatus.pending
    · exact ⟨hh, Or.inr ⟨hp, hterm⟩⟩
    · have hfr := hframe hp
      simp only [TransactionMonitorService.checkAllPendingTransactions] at hfr
      rw [hfr] at hout
      exact ⟨hh, Or.inl (Option.some.inj hout).symm⟩

/-- Witness for C3 at a concrete input: a success record and a pending record;
the tick (which finds a failure receipt for the pending one) leaves the
success record untouched. -/
theorem monitor_tick_terminal_absorbing_witness :
    (TransactionMonitorService.checkAllPendingTransactions sampleChain
        [sampleRec ("0xa") TxStatus.success,
          sampleRec ("0xb") TxStatus.pending]).1[0]? =
      some (sampleRec ("0xa") TxStatus.success) :=
  (monitor_tick_terminal_absorbing sampleChain
    [sampleRec ("0xa") TxStatus.success, sampleRec ("0xb") TxStatus.pending]
    (by decide) 0 (sampleRec ("0xa") TxStatus.success) rfl).1 (by decide)

/-- Re-reading a hash after updating it: when the update does not rename the
hash, the re-read returns exactly the merge of the previously found record. -/
theorem getTransactionRecord_update (records : List TransactionRecord)
    (txHash : String) (u : RecordUpdates) (hu : u.hash = none)
    (r : TransactionRecord)
    (h : TransactionService.getTransactionRecord records txHash = some r) :
    TransactionService.getTransactionRecord
        (TransactionService.updateTransactionRecord records txHash u) txHash =
      some (mergeRecord r u) := by
  induction records with
  | nil => simp [TransactionService.getTransactionRecord] at h
  | cons a rest ih =>
    by_cases ha : a.hash = txHash
    · have hra : r = a := by
        simp [TransactionService.getTransactionRecord, List.find?_cons_of_pos,
          ha] at h
        exact h.symm
      subst hra
      have hm : (mergeRecord r u).hash = txHash := by
        simp [mergeRecord, hu, ha]
      simp [TransactionService.getTransactionRecord,
        TransactionService.updateTransactionRecord, ha,
        List.find?_cons_of_pos, hm]
    · have h' : TransactionService.getTransactionRecord rest txHash = some r := by
        simpa [TransactionService.getTransactionRecord,
          List.find?_cons_of_neg, ha] using h
      have := ih h'
      simpa [TransactionService.getTransactionRecord,
        TransactionService.updateTransactionRecord, ha,
        List.find?_cons_of_neg] using this

/-- Claim C5 (amended): the manual single-record check returns null exactly
when the hash is unknown OR the record is still pending and the node has no
receipt for it yet (trackTransaction then returns null, which checkTransaction
passes through); a known non-pending record is returned unchanged without
touching the history, and for a known pending record the resulting history and
emitted notifications are exactly those of the per-record tick step. -/
theorem checkTransaction_spec (chain : ChainOracle)
    (records : List TransactionRecord) (txHash : String) :
    ((TransactionMonitorService.checkTransaction chain records txHash).1 = none ↔
      TransactionService.getTransactionRecord records txHash = none ∨
        (∃ r, TransactionService.getTransactionRecord records txHash = some r ∧
          r.status = TxStatus.pending ∧ chain txHash = none)) ∧
      (∀ r, TransactionService.getTransactionRecord records txHash = some r →
        r.status ≠ TxStatus.pending →
        TransactionMonitorService.checkTransaction chain records txHash =
          (some r, records, [])) ∧
      (∀ r, TransactionService.getTransactionRecord records txHash = some r →
        r.status = TxStatus.pending →
        ((TransactionMonitorService.checkTransaction chain records txHash).2.1 =
            (TransactionMonitorService.checkTransactionStatus chain records r).1 ∧
          (TransactionMonitorService.checkTransaction chain records txHash).2.2 =
            (TransactionMonitorService.checkTransactionStatus chain records r).2)) := by
  refine ⟨?_, ?_, ?_⟩
  · cases hg : TransactionService.getTransactionRecord records txHash with
    | none => simp [TransactionMonitorService.checkTransaction, hg]
    | some cur =>
      by_cases hp : cur.status = TxStatus.pending
      · cases hc : chain txHash with
        | none =>
          simp [TransactionMonitorService.checkTransaction, hg, hp,
            TransactionService.trackTransaction, hc]
        | some rc =>
          have hu := getTransactionRecord_update records txHash (trackUpdates rc)
            rfl cur hg
          simp [TransactionMonitorService.checkTransaction, hg, hp,
            TransactionService.trackTransaction, hc, hu]
          split <;> simp
      · simp [TransactionMonitorService.checkTransaction, hg, hp]
  · intro r hr hterm
    simp [TransactionMonitorService.checkTransaction, hr, hterm]
  · intro r hr hp
    have hhash : r.hash = txHash := by
      have := List.find?_some hr
      simpa using this
    unfold TransactionMonitorService.checkTransaction
      TransactionMonitorService.checkTransactionStatus
    rw [hr, hhash]
    simp only [hp]
    cases ht : (TransactionService.trackTransaction chain records txHash).1 with
    | none => simp [ht]
    | some u => by_cases hs : u.status = TxStatus.pending <;> simp [ht, hs, hp]

/-- Claim C5, counterexample: a record with the given hash exists (status
pending) but the chain has no receipt yet, and checkTransaction returns null
anyway — so "returns null if and only if no record with the hash exists" is
false. -/
theorem checkTransaction_null_despite_known_hash :
    TransactionService.getTransactionRecord
        [sampleRec ("0xb") TxStatus.pending] ("0xb") =
        some (sampleRec ("0xb") TxStatus.pending) ∧
      (TransactionMonitorService.checkTransaction emptyChain
        [sampleRec ("0xb") TxStatus.pending] ("0xb")).1 = none := by
  exact ⟨rfl, rfl⟩

/-- Witness for the amended C5 at a concrete input: known pending record, no
receipt, null returned. -/
theorem checkTransaction_spec_witness :
    (TransactionMonitorService.checkTransaction emptyChain
        [sampleRec ("0xc") TxStatus.pending] ("0xc")).1 = none :=
  (checkTransaction_spec emptyChain [sampleRec ("0xc") TxStatus.pending]
      ("0xc")).1.mpr
    (Or.inr ⟨sampleRec ("0xc") TxStatus.pending, rfl, rfl, rfl⟩)

/-- Claim C4: when the broadcast succeeds, the returned hash is the
response's hash and the resulting stored history is exactly the old one with
a new pending record prepended — gasUsed "0", no blockNumber — so the record
exists in the history the call hands back together with the hash; when the
broadcast or signing fails, the history is returned unchanged and the raised
error is the typed classification of the failure (insufficient funds / user
rejected / generic transaction failure). The hypothesis restricts to private
keys that pass the format pre-check, before which no broadcast is
attempted. -/
theorem signAndSendTransaction_spec (sendResult : Except SendErrorCode TxResponse)
    (privateKey : String) (timestamp : Nat) (records : List TransactionRecord)
    (hkey : privateKey.length = 64 ∨ privateKey.length = 66) :
    (∀ resp, sendResult = Except.ok resp →
      TransactionService.signAndSendTransaction sendResult privateKey timestamp
          records =
        (Except.ok resp.hash,
          { hash := resp.hash
            fromAddr := resp.fromAddr
            toAddr := resp.toAddr
            value := (resp.value.map toString).getD ("0")
            gasUsed := "0"
            gasPrice := (resp.gasPrice.map toString).getD ("0")
            status := TxStatus.pending
            timestamp := timestamp
            type := TxType.eth
            blockNumber := none } :: records)) ∧
      (∀ e, sendResult = Except.error e →
        TransactionService.signAndSendTransaction sendResult privateKey timestamp
            records =
          (Except.error
            (match e with
             | SendErrorCode.insufficientFunds => BlockchainErrorType.INSUFFICIENT_FUNDS
             | SendErrorCode.userRejected => BlockchainErrorType.USER_REJECTED
             | SendErrorCode.other => BlockchainErrorType.TRANSACTION_FAILED),
            records)) := by
  have hif : ¬ (privateKey.length ≠ 64 ∧ privateKey.length ≠ 66) := by
    rcases hkey with h | h <;> simp [h]
  constructor
  · intro resp hresp
    subst hresp
    simp [TransactionService.signAndSendTransaction, hif,
      TransactionService.saveTransactionRecord]
  · intro e he
    subst he
    cases e <;>
      simp [TransactionService.signAndSendTransaction, hif]

/-- Witness for C4 at a concrete input: a successful broadcast appends the
pending record and returns the hash. -/
theorem signAndSendTransaction_spec_witness :
    TransactionService.signAndSendTransaction
        (Except.ok { hash := "0xh1", fromAddr := "0xa", toAddr := "0xb",
                     value := some 5, gasPrice := some 2 })
        ("aaaaaaaaaaaaaaaaaaaaaaaaaaaaaaaaaaaaaaaaaaaaaaaaaaaaaaaaaaaaaaaa")
        7 [] =
      (Except.ok ("0xh1"),
        [{ hash := "0xh1", fromAddr := "0xa", toAddr := "0xb", value := "5",
           gasUsed := "0", gasPrice := "2", status := TxStatus.pending,
           timestamp := 7, type := TxType.eth, blockNumber := none }]) := by
  have h := (signAndSendTransaction_spec
    (Except.ok { hash := "0xh1", fromAddr := "0xa", toAddr := "0xb",
                 value := some 5, gasPrice := some 2 })
    ("aaaaaaaaaaaaaaaaaaaaaaaaaaaaaaaaaaaaaaaaaaaaaaaaaaaaaaaaaaaaaaaa")
    7 [] (Or.inl (by decide))).1
    { hash := "0xh1", fromAddr := "0xa", toAddr := "0xb",
      value := some 5, gasPrice := some 2 } rfl
  simpa using h

/-- Claim C6: buildETHTransaction rejects with the typed INVALID_ADDRESS
error whenever the recipient is not a well-formed address (before the amount
is even parsed), rejects with the typed INVALID_AMOUNT error whenever the
parsed amount is not strictly positive, and for valid inputs returns a
request whose value is exactly the amount converted to wei — no clamping.
The embedded function takes no chain-client oracle: no gas-estimation or
other chain call can occur inside it, as in the source, where estimateGas is
a separate method. -/
theorem buildETHTransaction_spec (fromAddr toAddr amount : String)
    (gasPrice gasLimit : Option String) :
    (ethers.isAddress toAddr = false →
      TransactionService.buildETHTransaction fromAddr toAddr amount gasPrice
          gasLimit =
        Except.error BlockchainErrorType.INVALID_ADDRESS) ∧
      (∀ w : Int, ethers.isAddress toAddr = true →
        ethers.parseEther amount = some w → w ≤ 0 →
        TransactionService.buildETHTransaction fromAddr toAddr amount gasPrice
            gasLimit =
          Except.error BlockchainErrorType.INVALID_AMOUNT) ∧
      (∀ w : Int, ethers.isAddress toAddr = true →
        ethers.parseEther amount = some w → 0 < w → gasPrice = none →
        TransactionService.buildETHTransaction fromAddr toAddr amount gasPrice
            gasLimit =
          Except.ok { toAddr := toAddr, value := toString w,
                      gasLimit := gasLimit, gasPrice := none }) ∧
      (∀ (w : Int) (gp : String) (g : Int), ethers.isAddress toAddr = true →
        ethers.parseEther amount = some w → 0 < w → gasPrice = some gp →
        ethers.parseUnits gp 9 = some g →
        TransactionService.buildETHTransaction fromAddr toAddr amount gasPrice
            gasLimit =
          Except.ok { toAddr := toAddr, value := toString w,
                      gasLimit := gasLimit, gasPrice := some (toString g) }) := by
  refine ⟨?_, ?_, ?_, ?_⟩
  · intro h
    simp [TransactionService.buildETHTransaction, h]
  · intro w ha hw hle
    simp [TransactionService.buildETHTransaction, ha, hw, hle]
  · intro w ha hw hpos hgp
    subst hgp
    simp [TransactionService.buildETHTransaction, ha, hw, not_le.mpr hpos]
  · intro w gp g ha hw hpos hgp hg
    subst hgp
    simp [TransactionService.buildETHTransaction, ha, hw, not_le.mpr hpos, hg]

/-- Witness for C6 at a concrete input: 1.5 ETH to a well-formed address is
converted exactly to 1500000000000000000 wei. -/
theorem buildETHTransaction_spec_witness :
    TransactionService.buildETHTransaction ("0xf")
        ("0xaaaaaaaaaaaaaaaaaaaaaaaaaaaaaaaaaaaaaaaa") ("1.5") none none =
      Except.ok { toAddr := "0xaaaaaaaaaaaaaaaaaaaaaaaaaaaaaaaaaaaaaaaa",
                  value := toString (1500000000000000000 : Int),
                  gasLimit := none, gasPrice := none } :=
  (buildETHTransaction_spec ("0xf") ("0xaaaaaaaaaaaaaaaaaaaaaaaaaaaaaaaaaaaaaaaa")
      ("1.5") none none).2.2.1 1500000000000000000 (by decide) (by decide)
    (by decide) rfl

/-- Once the failure counter has reached five, both the password input and
the unlock button are disabled, so an attempt changes nothing and never
unlocks. -/
theorem attemptUnlock_blocked (correct typed : String) (s : UnlockState)
    (h : 5 ≤ s.attempts) :
    UnlockWallet.attemptUnlock correct typed s = (s, false) := by
  have hm : UnlockWallet.isMaxAttempts s = true := by
    simp [UnlockWallet.isMaxAttempts, h]
  simp [UnlockWallet.attemptUnlock, UnlockWallet.typePassword,
    UnlockWallet.clickUnlock, UnlockWallet.unlockDisabled, hm]

/-- Claim C9 (amended): five consecutive wrong-password attempts from a fresh
unlock screen drive the failure counter to five; from that state every later
attempt — with the correct password included — is rejected without reaching
the unlock callback, and this never expires: the component has no cooldown
timer, so the screen stays locked until it is remounted. -/
theorem unlock_lockout_permanent (correct typed : String) (hne : typed ≠ correct)
    (hnz : typed ≠ "") :
    ((UnlockWallet.attemptUnlock correct typed
        ((UnlockWallet.attemptUnlock correct typed
          ((UnlockWallet.attemptUnlock correct typed
            ((UnlockWallet.attemptUnlock correct typed
              ((UnlockWallet.attemptUnlock correct typed
                initialUnlockState).1)).1)).1)).1)).1).attempts = 5 ∧
      (∀ s : UnlockState, 5 ≤ s.attempts → ∀ p : String,
        UnlockWallet.attemptUnlock correct p s = (s, false)) := by
  constructor
  · simp [UnlockWallet.attemptUnlock, UnlockWallet.typePassword,
      UnlockWallet.clickUnlock, UnlockWallet.handleUnlock,
      UnlockWallet.unlockDisabled, UnlockWallet.isMaxAttempts,
      initialUnlockState, beq_iff_eq, hne, hnz]
  · intro s hs p
    exact attemptUnlock_blocked correct p s hs

/-- Witness for the amended C9 at a concrete input: with the counter at five,
even the correct password is rejected and the state is unchanged. -/
theorem unlock_lockout_permanent_witness :
    UnlockWallet.attemptUnlock ("pw1") ("pw1") afterFiveWrong =
      (afterFiveWrong, false) :=
  (unlock_lockout_permanent ("pw1") ("bad") (by decide) (by decide)).2
    afterFiveWrong (by decide) ("pw1")

/-- Claim C9, counterexample to the cooldown expiring: after five wrong
attempts the sixth attempt with the correct password is blocked — but so is
every later one: a thousand further correct-password attempts leave the state
fixed and the wallet locked, because no cooldown timer exists in the
component. -/
theorem unlock_cooldown_never_expires :
    afterFiveWrong.attempts = 5 ∧
      (UnlockWallet.attemptUnlock ("pw1") ("pw1") afterFiveWrong).2 = false ∧
      (fun s => (UnlockWallet.attemptUnlock ("pw1") ("pw1") s).1)^[1000]
          afterFiveWrong = afterFiveWrong ∧
      (UnlockWallet.attemptUnlock ("pw1") ("pw1")
        ((fun s => (UnlockWallet.attemptUnlock ("pw1") ("pw1") s).1)^[1000]
          afterFiveWrong)).2 = false := by
  have hb : UnlockWallet.attemptUnlock ("pw1") ("pw1") afterFiveWrong =
      (afterFiveWrong, false) :=
    attemptUnlock_blocked ("pw1") ("pw1") afterFiveWrong (by decide)
  have hfix : (fun s => (UnlockWallet.attemptUnlock ("pw1") ("pw1") s).1)
      afterFiveWrong = afterFiveWrong := by
    show (UnlockWallet.attemptUnlock ("pw1") ("pw1") afterFiveWrong).1 =
      afterFiveWrong
    rw [hb]
  refine ⟨by decide, by rw [hb], Function.iterate_fixed hfix 1000, ?_⟩
  rw [Function.iterate_fixed hfix 1000, hb]
